import Mathlib

/-!
Shallow embedding of the two data pipelines in
`Customer_segmentation/customerSegmentation.ipynb`:
an RFM / K-Means customer-segmentation pipeline and a Telco churn-prediction
pipeline.  Numeric cell values are modelled as `Rat` (the notebooks use
Python floats only as exact decimal inputs for the properties at stake),
dataframe columns as Lists, missing values (NaN) as `Option.none`, and the
real-valued scaling step as functions on `ℝ`.
-/

namespace CCP

/-! ## Churn pipeline: data cleaning (notebook 2, cell 3) -/

/-- Value of a nonempty digit string, most significant first. -/
def digitsVal (cs : List Char) : Nat :=
  cs.foldl (fun acc c => 10 * acc + (c.toNat - 48)) 0

/-- Value of the fractional digits after the decimal point. -/
def fracVal (cs : List Char) : Rat :=
  (digitsVal cs : Rat) / ((10 : Rat) ^ cs.length)

/-- Parse an unsigned decimal literal: digits, optionally a point and more
digits; at least one digit overall.  Anything else fails. -/
def parseUnsigned (cs : List Char) : Option Rat :=
  let intPart := cs.takeWhile Char.isDigit
  let rest := cs.dropWhile Char.isDigit
  match rest with
  | [] => if intPart.isEmpty then none else some (digitsVal intPart)
  | c :: frac =>
    if c = '.' ∧ frac.all Char.isDigit ∧ (intPart ≠ [] ∨ frac ≠ []) then
      some ((digitsVal intPart : Rat) + fracVal frac)
    else none

/-- Strip leading and trailing whitespace from a character list. -/
def trimChars (cs : List Char) : List Char :=
  ((cs.dropWhile Char.isWhitespace).reverse.dropWhile Char.isWhitespace).reverse

/-- `pd.to_numeric(·, errors=coerce)` on a string cell: surrounding
whitespace is ignored, a blank or otherwise non-numeric cell coerces to
missing (`none`), a decimal literal with optional sign coerces to its
value. -/
def to_numeric_coerce (s : String) : Option Rat :=
  match trimChars s.toList with
  | [] => none
  | '-' :: cs => (parseUnsigned cs).map (fun q => -q)
  | '+' :: cs => parseUnsigned cs
  | cs => parseUnsigned cs

/-- Insert `x` into `l` before the first element `y` with `le x y`. -/
def insertBy {α : Type} (le : α → α → Bool) (x : α) : List α → List α
  | [] => [x]
  | y :: ys => if le x y then x :: y :: ys else y :: insertBy le x ys

/-- Insertion sort under the comparison `le` (models `sort_values`; for
pairwise-distinct keys it is the unique sorted order pandas produces). -/
def sort_values {α : Type} (le : α → α → Bool) : List α → List α
  | [] => []
  | x :: xs => insertBy le x (sort_values le xs)

/-- `Series.median()` over the non-missing values: none on an empty list,
the middle element of the sorted list for odd length, the mean of the two
middle elements for even length. -/
def median (l : List Rat) : Option Rat :=
  let s := sort_values (fun a b => decide (a ≤ b)) l
  if s.isEmpty then none
  else if s.length % 2 = 1 then some (s.getD (s.length / 2) 0)
  else some ((s.getD (s.length / 2 - 1) 0 + s.getD (s.length / 2) 0) / 2)

/-- The TotalCharges column after `pd.to_numeric(errors=coerce)`. -/
def coerced_total_charges (col : List String) : List (Option Rat) :=
  col.map to_numeric_coerce

/-- `median_total_charges = df[TotalCharges].median()`: the median of the
successfully coerced values (missing when none coerced). -/
def median_total_charges (col : List String) : Option Rat :=
  median ((coerced_total_charges col).filterMap id)

/-- `df[TotalCharges].fillna(median_total_charges)`: every missing value is
replaced by the median; when the median itself is missing (all-NaN column)
the fill is a no-op and the column stays missing. -/
def fillna_total_charges (col : List String) : List (Option Rat) :=
  match median_total_charges col with
  | none => coerced_total_charges col
  | some m => (coerced_total_charges col).map (fun o => some (o.getD m))

/-- `df[Churn].apply(lambda x: 1 if x == Yes else 0)` on one cell; a
missing cell (NaN) never equals the string and maps to 0. -/
def churn_to_binary (x : Option String) : Nat :=
  match x with
  | some s => if s = "Yes" then 1 else 0
  | none => 0

/-! ## Segmentation pipeline: RFM aggregation (notebook 1, cells 2 and 4) -/

/-- One row of `customers.csv` after `pd.to_datetime`: the order date is a
parsed date, modelled as an integer day number. -/
structure Txn where
  customerID : Nat
  orderDate : Int
  orderID : Nat
  orderValue : Rat
deriving DecidableEq, Repr

/-- The distinct customer ids of the input, one per `groupby` group.  (The
claims under verification do not depend on the order pandas lists the
groups in.) -/
def customerIDs (txns : List Txn) : List Nat :=
  (txns.map Txn.customerID).dedup

/-- The transactions of one customer (one `groupby(CustomerID)` group). -/
def txnsOf (txns : List Txn) (c : Nat) : List Txn :=
  txns.filter (fun t => t.customerID = c)

/-- `snapshot_date = df[OrderDate].max() + dt.timedelta(days=1)`.  The
notebook has a nonempty input; on an empty one we return the junk value 0,
never used by the theorems. -/
def snapshot_date (txns : List Txn) : Int :=
  ((txns.map Txn.orderDate).maximum.unbot' 0) + 1

/-- `date.max()` over one customer's group, as `List.maximum` (`⊥` only for
a customer absent from the input). -/
def latest_order_date (txns : List Txn) (c : Nat) : WithBot Int :=
  ((txnsOf txns c).map Txn.orderDate).maximum

/-- One row of `rfm_df` (after the rename): Recency, Frequency, Monetary
keyed by CustomerID. -/
structure RFMRecord where
  customerID : Nat
  Recency : Int
  Frequency : Nat
  Monetary : Rat
deriving DecidableEq, Repr

/-- `rfm_df = df.groupby(CustomerID).agg(...)`: per distinct customer,
Recency = (snapshot_date - date.max()).days, Frequency = count of OrderID,
Monetary = sum of OrderValue. -/
def rfm_df (txns : List Txn) : List RFMRecord :=
  (customerIDs txns).map (fun c =>
    { customerID := c
      Recency := snapshot_date txns - (latest_order_date txns c).unbot' (snapshot_date txns)
      Frequency := (txnsOf txns c).length
      Monetary := ((txnsOf txns c).map Txn.orderValue).sum })

/-! ## Segmentation pipeline: segment labelling (notebook 1, cell 11) -/

/-- One row of `cluster_profile = rfm_df.groupby(Cluster).agg(...)`: the
cluster id (the row index) with its mean Recency, mean Frequency, mean
Monetary and count. -/
structure ClusterProfile where
  cluster : Nat
  recencyMean : Rat
  frequencyMean : Rat
  monetaryMean : Rat
  count : Nat
deriving DecidableEq, Repr

/-- `cluster_profile.sort_values(by=(Recency, mean), ascending=True)`. -/
def sort_by_recency_asc (profile : List ClusterProfile) : List ClusterProfile :=
  sort_values (fun a b => decide (a.recencyMean ≤ b.recencyMean)) profile

/-- `cluster_profile.sort_values(by=(Frequency, mean), ascending=False)`. -/
def sort_by_frequency_desc (profile : List ClusterProfile) : List ClusterProfile :=
  sort_values (fun a b => decide (b.frequencyMean ≤ a.frequencyMean)) profile

/-- The `segment_map` dict literal: Recency-ascending ranks 0 and 1 become
Champions and Loyal Customers, Frequency-descending ranks 2 and 3 become
At-Risk and Hibernating.  The entries keep the dict insertion order (a
duplicated key means the later entry overwrites the earlier one, which
`dict_get` reflects by scanning the reversed list).  `none` models the
IndexError Python raises when a required rank does not exist. -/
def segment_map (profile : List ClusterProfile) : Option (List (Nat × String)) :=
  match (sort_by_recency_asc profile).get? 0, (sort_by_recency_asc profile).get? 1,
      (sort_by_frequency_desc profile).get? 2, (sort_by_frequency_desc profile).get? 3 with
  | some c0, some c1, some c2, some c3 =>
    some [(c0.cluster, "Champions"), (c1.cluster, "Loyal Customers"),
      (c2.cluster, "At-Risk"), (c3.cluster, "Hibernating")]
  | _, _, _, _ => none

/-- Python dict lookup on the insertion-ordered entry list: the LAST entry
with the key wins (duplicate keys in a dict literal overwrite). -/
def dict_get (entries : List (Nat × String)) (k : Nat) : Option String :=
  entries.reverse.lookup k

/-- `rfm_df[Cluster].map(segment_map)` for one cluster id: the segment
label, or `none` (pandas NaN) when the id is not a key of the map. -/
def map_segment (entries : List (Nat × String)) (c : Nat) : Option String :=
  dict_get entries c

/-- A 4-cluster profile with distinct R/F/M means on which the two sort
rules select four different clusters. -/
def goodProfile : List ClusterProfile :=
  [{ cluster := 0, recencyMean := 1, frequencyMean := 10, monetaryMean := 100, count := 5 },
   { cluster := 1, recencyMean := 2, frequencyMean := 9, monetaryMean := 90, count := 5 },
   { cluster := 2, recencyMean := 3, frequencyMean := 2, monetaryMean := 20, count := 5 },
   { cluster := 3, recencyMean := 4, frequencyMean := 1, monetaryMean := 10, count := 5 }]

/-- A 4-cluster profile with distinct R/F/M means on which the two sort
rules collide: Recency and Frequency rank the clusters identically, so the
Recency rule and the Frequency rule pick overlapping clusters. -/
def collisionProfile : List ClusterProfile :=
  [{ cluster := 0, recencyMean := 1, frequencyMean := 1, monetaryMean := 10, count := 5 },
   { cluster := 1, recencyMean := 2, frequencyMean := 2, monetaryMean := 20, count := 5 },
   { cluster := 2, recencyMean := 3, frequencyMean := 3, monetaryMean := 30, count := 5 },
   { cluster := 3, recencyMean := 4, frequencyMean := 4, monetaryMean := 40, count := 5 }]

/-! ## Segmentation pipeline: scaling (notebook 1, cell 6)

`np.log1p` then `StandardScaler` (population mean and standard deviation of
the log-transformed column), modelled over `ℝ`. -/

noncomputable section

/-- `np.log1p`. -/
def log1p (x : ℝ) : ℝ := Real.log (1 + x)

/-- `np.expm1`, the inverse of `np.log1p`. -/
def expm1 (x : ℝ) : ℝ := Real.exp x - 1

/-- Column mean, as `StandardScaler.fit` computes it. -/
def colMean (l : List ℝ) : ℝ := l.sum / l.length

/-- Population variance of a column (`StandardScaler` uses ddof = 0). -/
def colVar (l : List ℝ) : ℝ := ((l.map (fun v => (v - colMean l) ^ 2)).sum) / l.length

/-- Column standard deviation used by `StandardScaler`. -/
def colStd (l : List ℝ) : ℝ := Real.sqrt (colVar l)

/-- One cell of `rfm_scaled`: log1p, then standardize against the mean and
standard deviation of the log-transformed column `col`. -/
def scale_value (col : List ℝ) (x : ℝ) : ℝ :=
  (log1p x - colMean (col.map log1p)) / colStd (col.map log1p)

/-- The inverse transform: de-standardize (multiply by the column standard
deviation, add the column mean), then `expm1`. -/
def inverse_transform_value (col : List ℝ) (z : ℝ) : ℝ :=
  expm1 (z * colStd (col.map log1p) + colMean (col.map log1p))

end

/-! ## Segmentation pipeline: cluster fitter (notebook 1, cells 8 and 9)

Modelled from the spec: the fitter itself is `sklearn.cluster.KMeans`, a
library call whose source is not part of this repository.  Following
section 4.3 of the spec it is modelled as a pure function of the input
matrix and the seed: seeded pseudo-random centroid initialization, up to
300 Lloyd refinement iterations per fit, best of 10 initializations by
lowest within-cluster sum of squares, nearest-centroid assignment under
Euclidean distance (squared distance compared, ties to the lowest index).
-/

/-- Squared Euclidean distance between two feature vectors. -/
def sqDist (p q : List Rat) : Rat :=
  ((p.zip q).map (fun xy => (xy.1 - xy.2) ^ 2)).sum

/-- Index of the nearest centroid to `p` (ties to the lowest index). -/
def nearestCentroid (cents : List (List Rat)) (p : List Rat) : Nat :=
  match cents with
  | [] => 0
  | c0 :: rest =>
    (rest.foldl
      (fun acc c =>
        if sqDist p c < acc.2.1 then (acc.2.2, sqDist p c, acc.2.2 + 1)
        else (acc.1, acc.2.1, acc.2.2 + 1))
      ((0 : Nat), sqDist p c0, (1 : Nat))).1

/-- Componentwise sum of the vectors in `ps` (zero vector of width `dim`
when `ps` is empty). -/
def vecSum (ps : List (List Rat)) (dim : Nat) : List Rat :=
  ps.foldl (fun acc p => (acc.zip p).map (fun ab => ab.1 + ab.2)) (List.replicate dim 0)

/-- Mean of the vectors in `ps`; an empty cluster keeps its old centroid. -/
def centroidOf (ps : List (List Rat)) (old : List Rat) : List Rat :=
  if ps.isEmpty then old
  else (vecSum ps old.length).map (fun x => x / (ps.length : Rat))

/-- One Lloyd step: assign every point to its nearest centroid, then move
each centroid to the mean of its assigned points. -/
def updateCentroids (points cents : List (List Rat)) : List (List Rat) :=
  let labels := points.map (nearestCentroid cents)
  cents.mapIdx (fun i c =>
    centroidOf (((points.zip labels).filter (fun pl => pl.2 = i)).map Prod.fst) c)

/-- Lloyd iteration with fuel `max_iter = 300`, stopping early once the
centroids are stationary. -/
def lloyd : Nat → List (List Rat) → List (List Rat) → List (List Rat)
  | 0, _, cents => cents
  | fuel + 1, points, cents =>
    let next := updateCentroids points cents
    if next = cents then cents else lloyd fuel points next

/-- Within-cluster sum of squares of a centroid set on the input. -/
def wcss (points cents : List (List Rat)) : Rat :=
  (points.map (fun p => sqDist p (cents.getD (nearestCentroid cents p) []))).sum

/-- One step of a linear congruential generator: the deterministic
pseudo-random stream driven by `random_state`. -/
def lcg (s : Nat) : Nat := (1664525 * s + 1013904223) % 4294967296

/-- `k` seeded pseudo-random indices below `n`. -/
def initIndices : Nat → Nat → Nat → List Nat
  | 0, _, _ => []
  | k + 1, n, s => (lcg s % n) :: initIndices k n (lcg s)

/-- Seeded pseudo-random centroid initialization: `k` input points chosen
by the seeded stream. -/
def initCentroids (points : List (List Rat)) (k seed : Nat) : List (List Rat) :=
  (initIndices k points.length seed).map (fun i => points.getD i [])

/-- One fit: seeded initialization followed by at most 300 Lloyd steps. -/
def kmeans_single (points : List (List Rat)) (k seed : Nat) : List (List Rat) :=
  lloyd 300 points (initCentroids points k seed)

/-- `KMeans(n_clusters=k, random_state=seed, n_init=10).fit`: 10 fits from
successive derived seeds, keeping the centroid set of lowest WCSS. -/
def kmeans_fit (points : List (List Rat)) (k seed : Nat) : List (List Rat) :=
  match (List.range 10).map (fun i => kmeans_single points k (seed + i)) with
  | [] => []
  | r0 :: rest =>
    rest.foldl (fun best r => if wcss points r < wcss points best then r else best) r0

/-- `kmeans.labels_`: the cluster id assigned to every input row. -/
def kmeans_labels (points : List (List Rat)) (k seed : Nat) : List Nat :=
  points.map (nearestCentroid (kmeans_fit points k seed))

/-! ## Churn pipeline: risk tiering (notebook 2, cell 13) -/

/-- `assign_risk_tier(score)` from the notebook, verbatim thresholds. -/
def assign_risk_tier (score : Rat) : String :=
  if score > 0.75 then "High Risk"
  else if score > 0.50 then "Medium Risk"
  else "Low Risk"

/-- A small concrete transaction set used by the witnesses. -/
def exampleTxns : List Txn :=
  [{ customerID := 1, orderDate := 100, orderID := 10, orderValue := 50 },
   { customerID := 2, orderDate := 90, orderID := 11, orderValue := 20 }]

/-! ## Theorems -/

/-- Every RFM record carries Recency = snapshot_date minus that customer's
latest order date, and that value is at least 1 (shared helper for the
Recency claims). -/
theorem rfm_recency_spec (txns : List Txn) (r : RFMRecord) (hr : r ∈ rfm_df txns) :
    ∃ m : Int, latest_order_date txns r.customerID = some m ∧
      r.Recency = snapshot_date txns - m ∧ 1 ≤ r.Recency := by
  unfold rfm_df at hr
  rcases List.mem_map.mp hr with ⟨x, hx, rfl⟩
  have hx2 : x ∈ txns.map Txn.customerID := List.mem_dedup.mp hx
  rcases List.mem_map.mp hx2 with ⟨t, ht, htx⟩
  have htf : t ∈ txnsOf txns x := by
    unfold txnsOf
    rw [List.mem_filter]
    exact ⟨ht, by simp [htx]⟩
  have hmem : t.orderDate ∈ (txnsOf txns x).map Txn.orderDate :=
    List.mem_map_of_mem _ htf
  rcases hmax : ((txnsOf txns x).map Txn.orderDate).maximum with _ | m
  · have hnil : (txnsOf txns x).map Txn.orderDate = [] := List.maximum_eq_bot.mp hmax
    rw [hnil] at hmem
    exact absurd hmem (List.not_mem_nil _)
  · have hmm : m ∈ (txnsOf txns x).map Txn.orderDate := List.maximum_mem hmax
    have hsub0 : List.Sublist (txnsOf txns x) txns := by
      unfold txnsOf
      exact List.filter_sublist txns
    have hmall : m ∈ txns.map Txn.orderDate :=
      (List.Sublist.map Txn.orderDate hsub0).subset hmm
    rcases hmaxall : (txns.map Txn.orderDate).maximum with _ | M
    · have hnil : txns.map Txn.orderDate = [] := List.maximum_eq_bot.mp hmaxall
      rw [hnil] at hmall
      exact absurd hmall (List.not_mem_nil _)
    · have hle : m ≤ M := List.le_maximum_of_mem hmall hmaxall
      have hsnap : snapshot_date txns = M + 1 := by
        unfold snapshot_date
        rw [hmaxall]
        rfl
      refine ⟨m, ?_, ?_, ?_⟩
      · unfold latest_order_date
        exact hmax
      · simp only [latest_order_date, hmax]
        rfl
      · simp only [latest_order_date, hmax, hsnap]
        have hu : WithBot.unbot' (M + 1) (some m) = m := rfl
        simp only [hu]
        omega

/-- C3: the RFM aggregator outputs exactly one record per distinct
CustomerID of the input, whose Frequency is the number of that customer's
transactions and whose Monetary is the sum of that customer's OrderValue
fields. -/
theorem rfm_one_record_per_customer (txns : List Txn) (c : Nat)
    (hc : c ∈ txns.map Txn.customerID) :
    ((rfm_df txns).filter (fun r => r.customerID = c)).length = 1 ∧
    ∀ r ∈ rfm_df txns, r.customerID = c →
      r.Frequency = (txnsOf txns c).length ∧
      r.Monetary = ((txnsOf txns c).map Txn.orderValue).sum := by
  have hnd : (customerIDs txns).Nodup := List.nodup_dedup _
  have hcm : c ∈ customerIDs txns := List.mem_dedup.mpr hc
  constructor
  · unfold rfm_df
    rw [← List.countP_eq_length_filter, List.countP_map]
    have hcnt : (customerIDs txns).countP (fun x => decide (x = c))
        = (customerIDs txns).count c := by
      rw [List.count]
      apply List.countP_congr
      intro a _
      simp
    rw [Function.comp_def]
    rw [hcnt]
    exact List.count_eq_one_of_mem hnd hcm
  · intro r hr hrc
    unfold rfm_df at hr
    rcases List.mem_map.mp hr with ⟨x, hx, rfl⟩
    constructor <;> simp_all

/-- Witness for C3: customer 1 of the example input has exactly one RFM
record. -/
theorem rfm_one_record_per_customer_witness :
    ((rfm_df exampleTxns).filter (fun r => r.customerID = 1)).length = 1 :=
  (rfm_one_record_per_customer exampleTxns 1 (by decide)).1

/-- C4: on a non-empty input, every customer's Recency equals
snapshot_date minus that customer's latest order date and is ≥ 0 (the
snapshot date being the overall latest order date plus one day). -/
theorem rfm_recency_nonneg (txns : List Txn) (hne : txns ≠ []) :
    ∀ r ∈ rfm_df txns,
      (∃ m : Int, latest_order_date txns r.customerID = some m ∧
        r.Recency = snapshot_date txns - m) ∧ 0 ≤ r.Recency := by
  intro r hr
  obtain ⟨m, h1, h2, h3⟩ := rfm_recency_spec txns r hr
  exact ⟨⟨m, h1, h2⟩, by omega⟩

/-- Witness for C4 at the example input's first RFM record. -/
theorem rfm_recency_nonneg_witness :
    0 ≤ ((rfm_df exampleTxns).get ⟨0, by decide⟩).Recency :=
  (rfm_recency_nonneg exampleTxns (by decide) _
    (List.get_mem (rfm_df exampleTxns) 0 (by decide))).2

/-- C9: on a non-empty input, every customer's Recency is strictly
positive (at least one day), because the snapshot date is one day after
the overall latest order date. -/
theorem rfm_recency_pos (txns : List Txn) (hne : txns ≠ []) :
    ∀ r ∈ rfm_df txns, 1 ≤ r.Recency := by
  intro r hr
  obtain ⟨m, _, _, h3⟩ := rfm_recency_spec txns r hr
  exact h3

/-- Witness for C9 at the example input's first RFM record. -/
theorem rfm_recency_pos_witness :
    1 ≤ ((rfm_df exampleTxns).get ⟨0, by decide⟩).Recency :=
  rfm_recency_pos exampleTxns (by decide) _
    (List.get_mem (rfm_df exampleTxns) 0 (by decide))

/-- A key present among an association list's keys is found by `lookup`
(helper for the segment labeler). -/
theorem lookup_isSome_of_mem_keys (e : List (Nat × String)) (k : Nat)
    (hk : k ∈ e.map Prod.fst) : (e.lookup k).isSome = true := by
  induction e with
  | nil => simp at hk
  | cons kv rest ih =>
    rcases kv with ⟨k1, v1⟩
    by_cases hek : k = k1
    · simp [List.lookup, hek]
    · have hb : (k == k1) = false := beq_eq_false_iff_ne.mpr hek
      rw [List.map_cons, List.mem_cons] at hk
      rcases hk with h | h
      · exact absurd h hek
      · simpa [List.lookup, hb] using ih h

/-- A key of an association list with nodup keys heads exactly one entry
(helper for the segment labeler). -/
theorem filter_key_length_one (e : List (Nat × String)) (k : Nat)
    (hnd : (e.map Prod.fst).Nodup) (hk : k ∈ e.map Prod.fst) :
    (e.filter (fun kv => kv.1 = k)).length = 1 := by
  rw [← List.countP_eq_length_filter]
  have h1 : e.countP (fun kv => decide (kv.1 = k))
      = (e.map Prod.fst).countP (fun x => decide (x = k)) := by
    rw [List.countP_map]
    rfl
  rw [h1]
  have h2 : (e.map Prod.fst).countP (fun x => decide (x = k))
      = (e.map Prod.fst).count k := by
    rw [List.count]
    apply List.countP_congr
    intro a _
    simp
  rw [h2]
  exact List.count_eq_one_of_mem hnd hk

/-- C1 (amended): when the labeler's dual-sort rule succeeds (no
IndexError) and the four selected cluster ids are pairwise distinct and
cover every cluster of the profile, each cluster receives exactly one
segment label.  As originally stated the claim is false: the labeler never
raises on a 4-cluster profile, and when the two sort orders pick
overlapping clusters it silently leaves clusters unlabeled, see the
counterexample. -/
theorem segment_labeler_exactly_one (profile : List ClusterProfile)
    (e : List (Nat × String))
    (hmap : segment_map profile = some e)
    (hnd : (e.map Prod.fst).Nodup)
    (hcov : ∀ p ∈ profile, p.cluster ∈ e.map Prod.fst) :
    ∀ p ∈ profile, (map_segment e p.cluster).isSome = true ∧
      (e.filter (fun kv => kv.1 = p.cluster)).length = 1 := by
  intro p hp
  have hk : p.cluster ∈ e.map Prod.fst := hcov p hp
  constructor
  · unfold map_segment dict_get
    apply lookup_isSome_of_mem_keys
    rw [List.map_reverse, List.mem_reverse]
    exact hk
  · exact filter_key_length_one e p.cluster hnd hk

/-- Witness for amended C1: on the non-colliding profile, cluster 2 is
labeled. -/
theorem segment_labeler_exactly_one_witness :
    (map_segment [(0, "Champions"), (1, "Loyal Customers"), (2, "At-Risk"), (3, "Hibernating")]
      2).isSome = true :=
  (segment_labeler_exactly_one goodProfile
    [(0, "Champions"), (1, "Loyal Customers"), (2, "At-Risk"), (3, "Hibernating")]
    (by decide) (by decide) (by decide)
    { cluster := 2, recencyMean := 3, frequencyMean := 2, monetaryMean := 20, count := 5 }
    (by decide)).1

/-- Counterexample to C1 as stated: on `collisionProfile` (4 clusters,
distinct means) the labeler raises no error, yet cluster 2 is present and
ends up with no segment label (`none`), so not every cluster receives a
label. -/
theorem segment_labeler_unlabeled_cluster :
    segment_map collisionProfile =
      some [(0, "Champions"), (1, "Loyal Customers"), (1, "At-Risk"), (0, "Hibernating")] ∧
    (2 : Nat) ∈ collisionProfile.map ClusterProfile.cluster ∧
    map_segment [(0, "Champions"), (1, "Loyal Customers"), (1, "At-Risk"), (0, "Hibernating")]
      2 = none := by
  refine ⟨by decide, by decide, by decide⟩

/-- C6: for a column whose (log-transformed) standard deviation is nonzero
and a non-negative RFM value `x`, the inverse transform (de-standardize,
then expm1) recovers `x` from its scaled value exactly. -/
theorem scaling_round_trip (col : List ℝ) (x : ℝ)
    (hstd : colStd (col.map log1p) ≠ 0) (hx : 0 ≤ x) :
    inverse_transform_value col (scale_value col x) = x := by
  unfold inverse_transform_value scale_value expm1
  rw [div_mul_cancel₀ _ hstd, sub_add_cancel]
  unfold log1p
  rw [Real.exp_log (by linarith)]
  ring

/-- Witness for C6: the column `[0, 1]` has nonzero standard deviation
after log1p, and the value 2 round-trips through scaling. -/
theorem scaling_round_trip_witness :
    colStd ([0, 1].map log1p) ≠ 0 ∧
    inverse_transform_value [0, 1] (scale_value [0, 1] 2) = 2 := by
  have hL : 0 < Real.log 2 := Real.log_pos (by norm_num)
  have hvar : 0 < colVar ([0, 1].map log1p) := by
    simp [colVar, colMean, log1p]
    nlinarith [hL]
  have hstd : colStd ([0, 1].map log1p) ≠ 0 := by
    unfold colStd
    exact ne_of_gt (Real.sqrt_pos.mpr hvar)
  exact ⟨hstd, scaling_round_trip [0, 1] 2 hstd (by norm_num)⟩

/-- C8: the cluster fitter is a pure function of the scaled feature matrix
and the seed, so two runs on identical input (same rows, same order) with
the same seed assign identical cluster ids to every customer. -/
theorem kmeans_labels_deterministic (data : List (List Rat)) (k seed : Nat)
    (run1 run2 : List Nat)
    (h1 : run1 = kmeans_labels data k seed) (h2 : run2 = kmeans_labels data k seed) :
    run1 = run2 :=
  h1.trans h2.symm

/-- Witness for C8: two runs at `k = 2`, seed 42 on a concrete 4-point
input coincide. -/
theorem kmeans_labels_deterministic_witness :
    kmeans_labels [[0, 0, 0], [1, 0, 0], [10, 10, 10], [11, 10, 10]] 2 42
      = kmeans_labels [[0, 0, 0], [1, 0, 0], [10, 10, 10], [11, 10, 10]] 2 42 :=
  kmeans_labels_deterministic [[0, 0, 0], [1, 0, 0], [10, 10, 10], [11, 10, 10]] 2 42
    _ _ rfl rfl

/-- C2: for every churn probability `p` in `[0,1]`, the risk-tier bucketer
returns High Risk iff `p > 0.75`, Medium Risk iff `0.50 < p ≤ 0.75`, and
Low Risk iff `p ≤ 0.50`; in particular `0.75` is Medium, `0.751` is High
and `0.50` is Low (both thresholds strict). -/
theorem assign_risk_tier_boundaries (p : Rat) (h0 : 0 ≤ p) (h1 : p ≤ 1) :
    (assign_risk_tier p = "High Risk" ↔ 3/4 < p) ∧
    (assign_risk_tier p = "Medium Risk" ↔ 1/2 < p ∧ p ≤ 3/4) ∧
    (assign_risk_tier p = "Low Risk" ↔ p ≤ 1/2) ∧
    assign_risk_tier (3/4) = "Medium Risk" ∧
    assign_risk_tier (751/1000) = "High Risk" ∧
    assign_risk_tier (1/2) = "Low Risk" := by
  refine ⟨?_, ?_, ?_, by norm_num [assign_risk_tier], by norm_num [assign_risk_tier],
    by norm_num [assign_risk_tier]⟩ <;>
  · unfold assign_risk_tier
    split_ifs with hA hB <;> norm_num at hA <;> try norm_num at hB
    all_goals simp_all
    all_goals linarith

/-- Witness for C2 at the concrete probability 1/4. -/
theorem assign_risk_tier_boundaries_witness :
    assign_risk_tier (1/4) = "Low Risk" :=
  ((assign_risk_tier_boundaries (1/4) (by norm_num) (by norm_num)).2.2.1).mpr
    (by norm_num)

/-- C7: the cleaner maps the Churn field to 1 exactly when the cell is the
exact string Yes, and to 0 for every other value, missing cells included. -/
theorem churn_binarize_yes_only (x : Option String) :
    (churn_to_binary x = 1 ↔ x = some "Yes") ∧
    (x ≠ some "Yes" → churn_to_binary x = 0) ∧
    churn_to_binary none = 0 := by
  rcases x with _ | s
  · simp [churn_to_binary]
  · by_cases h : s = "Yes" <;> simp [churn_to_binary, h]

/-- Witness for C7 at the concrete cell value No. -/
theorem churn_binarize_yes_only_witness :
    churn_to_binary (some "No") = 0 :=
  (churn_binarize_yes_only (some "No")).2.1 (by decide)

/-- C5: every TotalCharges value that fails numeric coercion is replaced by
the median of the values that coerced successfully; for the input
`["", "10", "20", "30"]` the blank becomes `median(10,20,30) = 20`. -/
theorem totalCharges_median_imputation :
    (∀ (col : List String) (m : Rat) (i : Nat), median_total_charges col = some m →
      i < col.length → to_numeric_coerce (col.getD i "") = none →
      (fillna_total_charges col).getD i none = some m) ∧
    median_total_charges ["", "10", "20", "30"] = some 20 ∧
    fillna_total_charges ["", "10", "20", "30"] = [some 20, some 10, some 20, some 30] := by
  refine ⟨?_, by decide, by decide⟩
  intro col m i hm hi hc
  rw [List.getD_eq_getElem?_getD] at hc
  obtain ⟨s, hs, hsd⟩ : ∃ s, col[i]? = some s ∧ s = col[i]?.getD "" := by
    rcases h : col[i]? with _ | s
    · rw [List.getElem?_eq_none_iff] at h; omega
    · exact ⟨s, rfl, rfl⟩
  unfold fillna_total_charges
  rw [hm]
  rw [List.getD_eq_getElem?_getD, List.getElem?_map]
  unfold coerced_total_charges
  rw [List.getElem?_map, hs]
  simp [hsd, hc]

/-- Witness for C5: the blank cell of the spec's concrete column is filled
with the median 20. -/
theorem totalCharges_median_imputation_witness :
    (fillna_total_charges ["", "10", "20", "30"]).getD 0 none = some 20 :=
  totalCharges_median_imputation.1 ["", "10", "20", "30"] 20 0 (by decide) (by decide)
    (by decide)

/-- C10: when every TotalCharges value fails numeric coercion, the cleaner
raises no error: the median is missing, the fill step is a no-op, and the
pipeline proceeds with an all-missing column of the original length. -/
theorem totalCharges_all_noncoercible (col : List String)
    (h : ∀ s ∈ col, to_numeric_coerce s = none) :
    median_total_charges col = none ∧
    fillna_total_charges col = col.map (fun _ => none) ∧
    (fillna_total_charges col).length = col.length := by
  have hc : coerced_total_charges col = col.map (fun _ => none) := by
    unfold coerced_total_charges
    exact List.map_congr_left h
  have hfm : (coerced_total_charges col).filterMap id = [] := by
    rw [hc, List.filterMap_eq_nil_iff]
    intro a ha
    rcases List.mem_map.mp ha with ⟨s, _, rfl⟩
    rfl
  have hmed : median_total_charges col = none := by
    unfold median_total_charges
    rw [hfm]
    rfl
  refine ⟨hmed, ?_, ?_⟩
  · unfold fillna_total_charges
    rw [hmed, hc]
  · unfold fillna_total_charges
    rw [hmed, hc]
    simp

/-- Witness for C10 on a column whose two cells both fail coercion. -/
theorem totalCharges_all_noncoercible_witness :
    median_total_charges ["", "abc"] = none :=
  (totalCharges_all_noncoercible ["", "abc"] (by decide)).1

end CCP
